import Mathlib

/-!
Shallow embedding of the RLE core of litejpeg
(file litejpeg/core/rle/rlecore.py): the RLEDatapath synchronous datapath
and the RunLength write/read finite state machines.

Migen synchronous semantics are modelled as pure step functions: every
right hand side of a sync assignment reads the previous cycle's register
values, all registers commit simultaneously, a later assignment to the
same register in one sync list overrides an earlier one, and the
CEInserter clock enable freezes every datapath register when deasserted.
Twelve bit signals are naturals taken modulo 4096, the four bit
zero_count modulo 16, the six bit counters modulo 64.
-/

namespace LiteJPEG

/-- Truncation of a value to a 12 bit signal. -/
def mask12 (x : Nat) : Nat := x % 4096

/-- Bit 11 (the sign bit) of a 12 bit value, as 0 or 1. -/
def bit11 (x : Nat) : Nat := x / 2048 % 2

/-- Twelve bit wraparound subtraction, the semantics of the Migen
expression sink.data - prev_dc_0 on 12 bit signals. -/
def sub12 (a b : Nat) : Nat := (a % 4096 + (4096 - b % 4096)) % 4096

/-- Constant datapath_latency = 3 from rlecore.py line 21. -/
def datapath_latency : Nat := 3

/-- The latency value the RunLength actor stores in self.latency and
passes to PipelinedActor (rlecore.py lines 183-184). -/
def RunLength_latency : Nat := datapath_latency

/-- Registers of RLEDatapath (rlecore.py lines 68-81), including the
intermediate and final output registers.  source_inter and source are the
18 bit packed words; bit 17 is never written and stays 0. -/
structure DPState where
  accumulator : Nat
  accumulator_temp : Nat
  runlength : Nat
  dovalid : Bool
  dovalid_next : Bool
  dovalid_next_next : Bool
  zero_count : Nat
  prev_dc_0 : Nat
  source_inter : Nat
  source : Nat
deriving Repr, DecidableEq

/-- Reset values: every register clears to 0. -/
def DPState.reset : DPState :=
  { accumulator := 0, accumulator_temp := 0, runlength := 0
    dovalid := false, dovalid_next := false, dovalid_next_next := false
    zero_count := 0, prev_dc_0 := 0, source_inter := 0, source := 0 }

/-- The next values of the registers written by the first sync block of
RLEDatapath (rlecore.py lines 84-132): the per cycle encoding decision. -/
structure Decision where
  accumulator : Nat
  accumulator_temp : Nat
  runlength : Nat
  zero_count : Nat
  prev_dc_0 : Nat
  dovalid : Bool
deriving Repr, DecidableEq

/-- Combinational next-state function of the first sync block of
RLEDatapath (rlecore.py lines 84-132).  write_cnt is a 6 bit signal and
sink.data a 12 bit signal, hence the masks.  In the write_cnt == 0 branch
the second assignment to accumulator_temp overrides the first, and
zero_count is not assigned, so it keeps its value. -/
def rleDecision (s : DPState) (write_cnt data : Nat) : Decision :=
  if write_cnt % 64 = 0 then
    { accumulator := sub12 data s.prev_dc_0
      accumulator_temp :=
        (s.accumulator_temp + 8192 - 2 * bit11 s.accumulator_temp * s.accumulator) % 4096
      runlength := 0
      zero_count := s.zero_count
      prev_dc_0 := mask12 data
      dovalid := true }
  else if mask12 data = 0 then
    if s.zero_count = 15 then
      { accumulator := 0
        accumulator_temp := s.accumulator_temp
        runlength := 15
        zero_count := (s.zero_count + 1) % 16
        prev_dc_0 := s.prev_dc_0
        dovalid := true }
    else if write_cnt % 64 = 63 then
      { accumulator := 0
        accumulator_temp := s.accumulator_temp
        runlength := 0
        zero_count := s.zero_count
        prev_dc_0 := s.prev_dc_0
        dovalid := true }
    else
      { accumulator := s.accumulator
        accumulator_temp := s.accumulator_temp
        runlength := s.runlength
        zero_count := (s.zero_count + 1) % 16
        prev_dc_0 := s.prev_dc_0
        dovalid := false }
  else
    { accumulator := mask12 data
      accumulator_temp :=
        (s.accumulator + 8192 - 2 * bit11 s.accumulator * s.accumulator) % 4096
      runlength := s.zero_count
      zero_count := 0
      prev_dc_0 := s.prev_dc_0
      dovalid := true }

/-- Packing of the intermediate output word source_inter
(rlecore.py lines 139-146): bits 0-11 the accumulator, bits 12-15 the low
four bits of runlength, bit 16 the dovalid flag, bit 17 never driven. -/
def packToken (a r : Nat) (v : Bool) : Nat :=
  mask12 a + r % 16 * 4096 + (if v then 65536 else 0)

/-- One clocked step of RLEDatapath.  With the clock enable deasserted
(CEInserter) every register holds its value; otherwise the first sync
block commits the decision, the second shifts the dovalid delay line, the
third registers the packed word into source_inter and the fourth moves
source_inter into source — all reading the previous cycle's values. -/
def dpStep (s : DPState) (write_cnt data : Nat) (ce : Bool) : DPState :=
  if ce then
    { accumulator := (rleDecision s write_cnt data).accumulator
      accumulator_temp := (rleDecision s write_cnt data).accumulator_temp
      runlength := (rleDecision s write_cnt data).runlength
      dovalid := (rleDecision s write_cnt data).dovalid
      dovalid_next := s.dovalid
      dovalid_next_next := s.dovalid_next
      zero_count := (rleDecision s write_cnt data).zero_count
      prev_dc_0 := (rleDecision s write_cnt data).prev_dc_0
      source_inter := packToken s.accumulator s.runlength s.dovalid
      source := s.source_inter }
  else s

/-- Datapath run with the clock enable held high: state before cycle t,
driven by the stream of (write_cnt, sink.data) pairs. -/
def dpRunF (ins : Nat → Nat × Nat) : Nat → DPState
  | 0 => DPState.reset
  | t + 1 => dpStep (dpRunF ins t) (ins t).1 (ins t).2 true

@[simp] lemma dpStep_false (s : DPState) (wc d : Nat) : dpStep s wc d false = s := rfl

@[simp] lemma dpStep_accumulator (s : DPState) (wc d : Nat) :
    (dpStep s wc d true).accumulator = (rleDecision s wc d).accumulator := rfl

@[simp] lemma dpStep_runlength (s : DPState) (wc d : Nat) :
    (dpStep s wc d true).runlength = (rleDecision s wc d).runlength := rfl

@[simp] lemma dpStep_dovalid (s : DPState) (wc d : Nat) :
    (dpStep s wc d true).dovalid = (rleDecision s wc d).dovalid := rfl

@[simp] lemma dpStep_dovalid_next (s : DPState) (wc d : Nat) :
    (dpStep s wc d true).dovalid_next = s.dovalid := rfl

@[simp] lemma dpStep_dovalid_next_next (s : DPState) (wc d : Nat) :
    (dpStep s wc d true).dovalid_next_next = s.dovalid_next := rfl

@[simp] lemma dpStep_zero_count (s : DPState) (wc d : Nat) :
    (dpStep s wc d true).zero_count = (rleDecision s wc d).zero_count := rfl

@[simp] lemma dpStep_prev_dc_0 (s : DPState) (wc d : Nat) :
    (dpStep s wc d true).prev_dc_0 = (rleDecision s wc d).prev_dc_0 := rfl

@[simp] lemma dpStep_source_inter (s : DPState) (wc d : Nat) :
    (dpStep s wc d true).source_inter = packToken s.accumulator s.runlength s.dovalid := rfl

@[simp] lemma dpStep_source (s : DPState) (wc d : Nat) :
    (dpStep s wc d true).source = s.source_inter := rfl

/-- C6: the validity decision computed by the per-cycle transition is
delayed by exactly two further register stages (dovalid_next,
dovalid_next_next); the packed token leaves the encoder through the
source_inter and source registers three cycles after the coefficient
entered, so the word and the doubly delayed validity bit at cycle t+3 are
exactly the decision taken on the input of cycle t; and the component
reports this latency, 3, to the pipeline actor framework. -/
theorem rle_C6 :
    datapath_latency = 3 ∧
    RunLength_latency = datapath_latency ∧
    (∀ (s : DPState) (wc d : Nat),
      (dpStep s wc d true).dovalid_next = s.dovalid ∧
      (dpStep s wc d true).dovalid_next_next = s.dovalid_next) ∧
    (∀ (ins : Nat → Nat × Nat) (t : Nat),
      (dpRunF ins (t + 3)).source =
        packToken (rleDecision (dpRunF ins t) (ins t).1 (ins t).2).accumulator
          (rleDecision (dpRunF ins t) (ins t).1 (ins t).2).runlength
          (rleDecision (dpRunF ins t) (ins t).1 (ins t).2).dovalid ∧
      (dpRunF ins (t + 3)).dovalid_next_next =
        (rleDecision (dpRunF ins t) (ins t).1 (ins t).2).dovalid) := by
  refine ⟨rfl, rfl, fun s wc d => ⟨rfl, rfl⟩, fun ins t => ⟨?_, ?_⟩⟩ <;>
    simp [show t + 3 = t + 1 + 1 + 1 by ring, dpRunF]

/-- Feeding one full block of 64 coefficients, one per enabled cycle in
position order, into the datapath: position p arrives with write_cnt = p
(the feeding pattern of the RunLength write path for back to back
blocks). -/
def feedBlock (s : DPState) (b : Nat → Nat) : DPState :=
  (List.range 64).foldl (fun st p => dpStep st p (b p) true) s

/-- Feeding a list of blocks back to back. -/
def feedBlocks (s : DPState) (bs : List (Nat → Nat)) : DPState :=
  bs.foldl feedBlock s

/-- Raw 12 bit DC value of the last block of the list, 0 when the list is
empty: the value the spec calls the previous DC of the next block. -/
def prevDCof (bs : List (Nat → Nat)) : Nat :=
  (bs.map (fun b => b 0 % 4096)).getLastD 0

lemma dpStep_prev_dc_of_ne (s : DPState) (wc d : Nat) (h : wc % 64 ≠ 0) :
    (dpStep s wc d true).prev_dc_0 = s.prev_dc_0 := by
  simp only [dpStep_prev_dc_0, rleDecision, if_neg h]
  split_ifs <;> rfl

lemma foldl_dpStep_prev_dc (b : Nat → Nat) :
    ∀ (l : List Nat) (s : DPState), (∀ p ∈ l, p % 64 ≠ 0) →
      ((l.foldl (fun st p => dpStep st p (b p) true) s)).prev_dc_0 = s.prev_dc_0 := by
  intro l
  induction l with
  | nil => intro s _; rfl
  | cons p r ih =>
    intro s h
    rw [List.foldl_cons, ih _ (fun q hq => h q (List.mem_cons_of_mem p hq)),
      dpStep_prev_dc_of_ne s p (b p) (h p (List.mem_cons_self p r))]

lemma feedBlock_prev_dc (s : DPState) (b : Nat → Nat) :
    (feedBlock s b).prev_dc_0 = b 0 % 4096 := by
  have h64 : List.range 64 = 0 :: (List.range 63).map Nat.succ := by
    rw [show (64 : Nat) = 63 + 1 from rfl, List.range_succ_eq_map]
  rw [feedBlock, h64, List.foldl_cons, foldl_dpStep_prev_dc]
  · simp [rleDecision, mask12]
  · intro p hp
    simp only [List.mem_map, List.mem_range] at hp
    omega

lemma feedBlocks_prev_dc :
    ∀ (bs : List (Nat → Nat)) (s : DPState),
      (feedBlocks s bs).prev_dc_0 = (bs.map (fun b => b 0 % 4096)).getLastD s.prev_dc_0 := by
  intro bs
  induction bs with
  | nil => intro s; rfl
  | cons b r ih =>
    intro s
    rw [feedBlocks, List.foldl_cons, show r.foldl feedBlock (feedBlock s b) =
      feedBlocks (feedBlock s b) r from rfl, ih, List.map_cons, List.getLastD_cons,
      feedBlock_prev_dc]

/-- C1: after any list of blocks has been processed from reset, the
decision taken at position 0 of the next block carries amplitude equal to
the 12 bit wraparound difference between that block's raw DC value and
the raw DC value of the immediately preceding block (0 when no block
precedes), run length 0 and a set validity flag; the step commits the
current raw DC into prev_dc_0; and prev_dc_0 is written by no other
operation: any step at a nonzero position preserves it, and a clock
disabled step preserves the whole state. -/
theorem rle_C1 (bs : List (Nat → Nat)) (b : Nat → Nat) :
    ((rleDecision (feedBlocks DPState.reset bs) 0 (b 0)).accumulator
        = sub12 (b 0) (prevDCof bs) ∧
      (rleDecision (feedBlocks DPState.reset bs) 0 (b 0)).runlength = 0 ∧
      (rleDecision (feedBlocks DPState.reset bs) 0 (b 0)).dovalid = true) ∧
    (dpStep (feedBlocks DPState.reset bs) 0 (b 0) true).prev_dc_0 = b 0 % 4096 ∧
    (∀ (s : DPState) (wc d : Nat), wc % 64 ≠ 0 →
      (dpStep s wc d true).prev_dc_0 = s.prev_dc_0) ∧
    (∀ (s : DPState) (wc d : Nat), dpStep s wc d false = s) := by
  refine ⟨⟨?_, rfl, rfl⟩, rfl, dpStep_prev_dc_of_ne, fun s wc d => rfl⟩
  have h : (feedBlocks DPState.reset bs).prev_dc_0 = prevDCof bs := by
    rw [feedBlocks_prev_dc]; rfl
  simp [rleDecision, h]

/-- Closed instance of rle_C1: one earlier block with DC 10, next DC 7,
amplitude is the 12 bit encoding of -3; the nonzero position hypothesis
of the preservation conjunct is discharged at position 5. -/
theorem rle_C1_witness :
    (rleDecision (feedBlocks DPState.reset [fun _ => 10]) 0 7).accumulator = 4093 ∧
    (dpStep (feedBlocks DPState.reset [fun _ => 10]) 0 7 true).prev_dc_0 = 7 ∧
    (dpStep DPState.reset 5 3 true).prev_dc_0 = DPState.reset.prev_dc_0 := by
  refine ⟨?_, ?_, (rle_C1 [] (fun _ => 0)).2.2.1 DPState.reset 5 3 (by decide)⟩
  · have h := (rle_C1 [fun _ => 10] (fun _ => 7)).1.1
    rw [h]; decide
  · have h := (rle_C1 [fun _ => 10] (fun _ => 7)).2.1
    rw [h]

set_option maxRecDepth 40000

/-- Default member used for safe list indexing into decision traces. -/
def Decision.zero : Decision :=
  { accumulator := 0, accumulator_temp := 0, runlength := 0
    zero_count := 0, prev_dc_0 := 0, dovalid := false }

/-- Trace of the 64 per position decisions taken while one block passes
through the datapath, position p fed with write_cnt = p. -/
def blockDecisions (s : DPState) (b : Nat → Nat) : List Decision :=
  ((List.range 64).foldl (fun (acc : DPState × List Decision) p =>
      (dpStep acc.1 p (b p) true, acc.2 ++ [rleDecision acc.1 p (b p)])) (s, [])).2

/-- C3 fails on the code: the write_cnt == 0 branch of RLEDatapath does
not assign zero_count, so the counter is not reset at block start.  After
an all zero block (which leaves zero_count = 14), processing position 0
of the next block still leaves zero_count = 14, and a nonzero value 5 at
position 1 of that next block is emitted with run length 14 instead of
the 0 zeros that precede it inside its own block. -/
theorem rle_C3_bug :
    (feedBlock DPState.reset (fun _ => 0)).zero_count = 14 ∧
    (dpStep (feedBlock DPState.reset (fun _ => 0)) 0 0 true).zero_count = 14 ∧
    (rleDecision (dpStep (feedBlock DPState.reset (fun _ => 0)) 0 0 true) 1 5).runlength
      = 14 ∧
    (rleDecision (dpStep (feedBlock DPState.reset (fun _ => 0)) 0 0 true) 1 5).dovalid
      = true := by
  decide

/-- C2 fails on the code through the same missing reset: in a block that
follows an all zero block, the maximal run before the nonzero value 7 at
position 2 has length L = 1, so the claim demands zero overflow tokens
and then the token (7, 1); the code instead starts the block with the
stale zero_count 14 inherited from the previous block and emits (7, 15). -/
theorem rle_C2_bug :
    (rleDecision (dpStep (dpStep (feedBlock DPState.reset (fun _ => 0)) 0 0 true)
        1 0 true) 2 7).accumulator = 7 ∧
    (rleDecision (dpStep (dpStep (feedBlock DPState.reset (fun _ => 0)) 0 0 true)
        1 0 true) 2 7).runlength = 15 ∧
    (rleDecision (dpStep (dpStep (feedBlock DPState.reset (fun _ => 0)) 0 0 true)
        1 0 true) 2 7).dovalid = true ∧
    (rleDecision (dpStep (feedBlock DPState.reset (fun _ => 0)) 0 0 true) 1 0).dovalid
      = false := by
  decide

/-- C4 fails on the code through the same missing reset: a first block
whose only nonzero AC value sits at position 61 leaves zero_count = 1;
a following block whose 63 AC coefficients are all zero then reaches
position 63 with zero_count = 15, so the overflow branch fires there
(token (0, 15)) and no end of block token (0, 0, valid) is emitted at any
AC position of that block. -/
theorem rle_C4_bug :
    (feedBlock DPState.reset (fun p => if p = 61 then 1 else 0)).zero_count = 1 ∧
    (blockDecisions (feedBlock DPState.reset (fun p => if p = 61 then 1 else 0))
        (fun _ => 0)).length = 64 ∧
    ((blockDecisions (feedBlock DPState.reset (fun p => if p = 61 then 1 else 0))
        (fun _ => 0)).getD 63 Decision.zero).accumulator = 0 ∧
    ((blockDecisions (feedBlock DPState.reset (fun p => if p = 61 then 1 else 0))
        (fun _ => 0)).getD 63 Decision.zero).runlength = 15 ∧
    ((blockDecisions (feedBlock DPState.reset (fun p => if p = 61 then 1 else 0))
        (fun _ => 0)).getD 63 Decision.zero).dovalid = true ∧
    ((blockDecisions (feedBlock DPState.reset (fun p => if p = 61 then 1 else 0))
        (fun _ => 0)).drop 1).all
      (fun dec => !(dec.dovalid && (dec.accumulator == 0) && (dec.runlength % 16 == 0)))
      = true := by
  decide

/-- Registers of the RunLength block scheduler (rlecore.py lines
190-277): the two FSM state registers (false is the INIT reset state of
each FSM, true is WRITE_INPUT respectively READ_OUTPUT), the two slot
selectors and the two 6 bit counters. -/
structure SchedState where
  wfsm : Bool
  write_sel : Bool
  read_sel : Bool
  write_count : Nat
  rfsm : Bool
  read_count : Nat
deriving Repr, DecidableEq

/-- Reset values: both FSMs in INIT, write_sel resets to 0, read_sel
resets to 1 (rlecore.py lines 192-196), counters 0. -/
def SchedState.reset : SchedState :=
  { wfsm := false, write_sel := false, read_sel := true
    write_count := 0, rfsm := false, read_count := 0 }

/-- Combinational write_swap strobe: asserted in WRITE_INPUT when a valid
element is accepted at position 63 (rlecore.py lines 254-263). -/
def write_swap (s : SchedState) (sv : Bool) : Bool :=
  s.wfsm && sv && (s.write_count == 63)

/-- Combinational write_inc strobe (rlecore.py lines 254-263). -/
def write_inc (s : SchedState) (sv : Bool) : Bool :=
  s.wfsm && sv && !(s.write_count == 63)

/-- Combinational read_swap strobe: asserted in the read INIT state when
read_sel equals write_sel (rlecore.py lines 288-292). -/
def read_swap (s : SchedState) : Bool :=
  !s.rfsm && (s.read_sel == s.write_sel)

/-- Combinational read_inc strobe: READ_OUTPUT and consumer ready
(rlecore.py lines 302-310). -/
def read_inc (s : SchedState) (sr : Bool) : Bool :=
  s.rfsm && sr

/-- One clocked step of the two coupled FSMs and their registers, with
producer valid sv and consumer ready sr.  The write FSM leaves INIT when
write_sel differs from read_sel and returns to INIT on accepting position
63, toggling write_sel; the read FSM leaves INIT when read_sel equals
write_sel, toggling read_sel, and returns to INIT when the cycle with
read_count = 63 is accepted.  write_count clears in INIT, else increments
on write_inc; read_count likewise with read_clear and read_inc. -/
def schedStep (s : SchedState) (sv sr : Bool) : SchedState :=
  { wfsm := if s.wfsm then !(sv && (s.write_count == 63)) else (s.write_sel != s.read_sel)
    write_sel := if write_swap s sv then !s.write_sel else s.write_sel
    read_sel := if read_swap s then !s.read_sel else s.read_sel
    write_count := if !s.wfsm then 0
      else if write_inc s sv then (s.write_count + 1) % 64 else s.write_count
    rfsm := if s.rfsm then !(sr && (s.read_count == 63)) else (s.read_sel == s.write_sel)
    read_count := if !s.rfsm then 0
      else if read_inc s sr then (s.read_count + 1) % 64 else s.read_count }

/-- Stream level sink.ready: asserted exactly in WRITE_INPUT. -/
def schedSinkReady (s : SchedState) : Bool := s.wfsm

/-- Stream level source.valid: asserted exactly in READ_OUTPUT
(rlecore.py line 303), independent of any token content. -/
def schedSourceValid (s : SchedState) : Bool := s.rfsm

/-- Stream level source.last: asserted in READ_OUTPUT when read_count is
63 (rlecore.py line 304). -/
def schedSourceLast (s : SchedState) : Bool := s.rfsm && (s.read_count == 63)

/-- Full state of the RunLength actor: scheduler plus datapath. -/
structure RLState where
  sched : SchedState
  dp : DPState
deriving Repr, DecidableEq

/-- Reset state of the whole actor. -/
def RLState.reset : RLState := { sched := SchedState.reset, dp := DPState.reset }

/-- Per cycle inputs of the actor: producer valid, the word on
sink.data, consumer ready, and the externally supplied clock enable
pipe_ce that gates the datapath registers. -/
structure RLIn where
  sink_valid : Bool
  sink_data : Nat
  source_ready : Bool
  ce : Bool
deriving Repr, DecidableEq

/-- One clocked step of the whole actor: the datapath sees the current
write_count on its write_cnt input and the raw sink.data word every
enabled cycle (rlecore.py lines 228-231), combinationally, regardless of
the stream handshake; the scheduler advances on the handshake alone. -/
def rlStep (s : RLState) (i : RLIn) : RLState :=
  { sched := schedStep s.sched i.sink_valid i.source_ready
    dp := dpStep s.dp s.sched.write_count i.sink_data i.ce }

/-- Run of the whole actor from reset over a list of per cycle inputs. -/
def rlRun (ins : List RLIn) : RLState := ins.foldl rlStep RLState.reset

/-- The word presented on source.data: the comb If without Else
(rlecore.py lines 281-284) forwards the low 17 bits of the datapath
output word when dovalid_next_next is set and otherwise leaves the
signal at its default value 0. -/
def rlSourceData (s : RLState) : Nat :=
  if s.dp.dovalid_next_next then s.dp.source % 131072 else 0

/-- Stream level source.valid of the actor. -/
def rlSourceValid (s : RLState) : Bool := schedSourceValid s.sched

/-- Stream level source.last of the actor. -/
def rlSourceLast (s : RLState) : Bool := schedSourceLast s.sched

/-- Stream level sink.ready of the actor. -/
def rlSinkReady (s : RLState) : Bool := schedSinkReady s.sched

/-- C8 fails on the code: the datapath is gated only by the external
clock enable, not by the stream handshake, so it processes whatever word
sits on sink.data on every enabled cycle.  Concrete run: reset, one INIT
cycle, then the block prefix 10, 0, 0 is accepted; the state holds
zero_count = 2 with the write FSM mid block.  One further cycle with
sink.valid deasserted (stall), sink.data = 3 on the wire and the clock
enable high transfers no element (the scheduler, hence write_count, is
unchanged) yet resets zero_count to 0 and raises a fresh dovalid:
the encoder state is corrupted by a cycle without a transfer. -/
theorem rle_C8_bug :
    (rlRun [⟨true, 0, true, true⟩, ⟨true, 10, true, true⟩,
        ⟨true, 0, true, true⟩, ⟨true, 0, true, true⟩]).sched.wfsm = true ∧
    (rlRun [⟨true, 0, true, true⟩, ⟨true, 10, true, true⟩,
        ⟨true, 0, true, true⟩, ⟨true, 0, true, true⟩]).dp.zero_count = 2 ∧
    (rlRun [⟨true, 0, true, true⟩, ⟨true, 10, true, true⟩,
        ⟨true, 0, true, true⟩, ⟨true, 0, true, true⟩]).dp.dovalid = false ∧
    (rlStep (rlRun [⟨true, 0, true, true⟩, ⟨true, 10, true, true⟩,
        ⟨true, 0, true, true⟩, ⟨true, 0, true, true⟩])
        ⟨false, 3, true, true⟩).sched
      = (rlRun [⟨true, 0, true, true⟩, ⟨true, 10, true, true⟩,
        ⟨true, 0, true, true⟩, ⟨true, 0, true, true⟩]).sched ∧
    (rlStep (rlRun [⟨true, 0, true, true⟩, ⟨true, 10, true, true⟩,
        ⟨true, 0, true, true⟩, ⟨true, 0, true, true⟩])
        ⟨false, 3, true, true⟩).dp.zero_count = 0 ∧
    (rlStep (rlRun [⟨true, 0, true, true⟩, ⟨true, 10, true, true⟩,
        ⟨true, 0, true, true⟩, ⟨true, 0, true, true⟩])
        ⟨false, 3, true, true⟩).dp.dovalid = true := by
  decide

/-- Scheduler state extended with two ghost counters used only in the
statements about block synchronization: the number of blocks the write
side has completed (write_swap strobes) and the number of blocks the read
side has begun draining (read_swap strobes).  The underlying SchedState
field evolves exactly as in the code. -/
structure GSched where
  s : SchedState
  wBlocks : Nat
  rBlocks : Nat
deriving Repr, DecidableEq

/-- Ghost reset. -/
def GSched.reset : GSched := { s := SchedState.reset, wBlocks := 0, rBlocks := 0 }

/-- Ghost step: the real scheduler step, plus counting the swap
strobes. -/
def gStep (g : GSched) (sv sr : Bool) : GSched :=
  { s := schedStep g.s sv sr
    wBlocks := g.wBlocks + (if write_swap g.s sv then 1 else 0)
    rBlocks := g.rBlocks + (if read_swap g.s then 1 else 0) }

/-- Ghost run from reset over a list of (sink.valid, source.ready)
cycles. -/
def gRun (ins : List (Bool × Bool)) : GSched :=
  ins.foldl (fun g i => gStep g i.1 i.2) GSched.reset

/-- Synchronization invariant of the coupled FSMs: the read side has
begun at most as many blocks as the write side completed and lags by at
most one; the slot selectors differ exactly when the counts agree; and
while the write FSM is in WRITE_INPUT the selectors differ. -/
def SchedInv (g : GSched) : Prop :=
  g.rBlocks ≤ g.wBlocks ∧ g.wBlocks ≤ g.rBlocks + 1 ∧
  ((g.s.write_sel ≠ g.s.read_sel) ↔ g.wBlocks = g.rBlocks) ∧
  (g.s.wfsm = true → g.s.write_sel ≠ g.s.read_sel)

lemma schedInv_step (g : GSched) (sv sr : Bool) (h : SchedInv g) :
    SchedInv (gStep g sv sr) := by
  obtain ⟨h1, h2, h3, h4⟩ := h
  rcases g with ⟨⟨wf, ws, rs, wc, rf, rc⟩, wB, rB⟩
  simp only [SchedInv, gStep, schedStep, write_swap, write_inc, read_swap, read_inc] at *
  by_cases hwc : (wc == 63) = true <;> rcases wf <;> rcases ws <;> rcases rs <;>
    rcases rf <;> rcases sv <;> rcases sr <;> simp_all <;> omega

lemma schedInv_foldl :
    ∀ (ins : List (Bool × Bool)) (g : GSched), SchedInv g →
      SchedInv (ins.foldl (fun g i => gStep g i.1 i.2) g) := by
  intro ins
  induction ins with
  | nil => intro g hg; exact hg
  | cons i rest ih =>
    intro g hg
    exact ih _ (schedInv_step g i.1 i.2 hg)

lemma schedInv_run (ins : List (Bool × Bool)) : SchedInv (gRun ins) :=
  schedInv_foldl ins GSched.reset (by unfold SchedInv; decide)

/-- C7 as stated is false on the code: with producer and consumer always
ready, after 66 cycles from reset the write FSM sits in INIT, the read
FSM is in READ_OUTPUT with read_count = 0 — it has completed one swap
(rBlocks = 1) but accepted none of the 64 output cycles of the one
completed block (wBlocks = 1) — and the very next cycle moves the write
FSM into WRITE_INPUT: the write side begins filling a new block before
the read side has fully drained the previous one. -/
theorem rle_C7_cex :
    (gRun (List.replicate 66 (true, true))).s.wfsm = false ∧
    (schedStep (gRun (List.replicate 66 (true, true))).s true true).wfsm = true ∧
    (gRun (List.replicate 66 (true, true))).s.rfsm = true ∧
    (gRun (List.replicate 66 (true, true))).s.read_count = 0 ∧
    (gRun (List.replicate 66 (true, true))).wBlocks = 1 ∧
    (gRun (List.replicate 66 (true, true))).rBlocks = 1 := by
  decide

/-- C7 amended: the write side leaves INIT only when the slot selectors
differ; write_sel toggles exactly when position 63 is accepted; the read
side toggles read_sel, and leaves its INIT state, exactly when the
selectors are equal; and on every run from reset, whenever the write FSM
moves from INIT to WRITE_INPUT, every block the write side has completed
has already been begun by the read side (wBlocks = rBlocks) — the write
side runs at most one block ahead, but it may start while the read side
is still mid drain of the previous block. -/
theorem rle_C7_amended :
    (∀ (s : SchedState) (sv sr : Bool),
      s.wfsm = false → (schedStep s sv sr).wfsm = true → s.write_sel ≠ s.read_sel) ∧
    (∀ (s : SchedState) (sv sr : Bool),
      ((schedStep s sv sr).write_sel ≠ s.write_sel ↔
        (s.wfsm = true ∧ sv = true ∧ s.write_count = 63))) ∧
    (∀ (s : SchedState) (sv sr : Bool),
      ((schedStep s sv sr).read_sel ≠ s.read_sel ↔
        (s.rfsm = false ∧ s.read_sel = s.write_sel)) ∧
      (s.rfsm = false → ((schedStep s sv sr).rfsm = true ↔ s.read_sel = s.write_sel))) ∧
    (∀ (ins : List (Bool × Bool)) (sv sr : Bool),
      (gRun ins).s.wfsm = false → (schedStep (gRun ins).s sv sr).wfsm = true →
        (gRun ins).wBlocks = (gRun ins).rBlocks) := by
  refine ⟨?_, ?_, ?_, ?_⟩
  · intro s sv sr h0 h1
    rcases s with ⟨wf, ws, rs, wc, rf, rc⟩
    simp only [schedStep] at h0 h1 ⊢
    rcases wf <;> rcases ws <;> rcases rs <;> simp_all
  · intro s sv sr
    rcases s with ⟨wf, ws, rs, wc, rf, rc⟩
    simp only [schedStep, write_swap]
    by_cases hwc : (wc == 63) = true <;>
      rcases wf <;> rcases ws <;> rcases sv <;>
        simp_all
  · intro s sv sr
    rcases s with ⟨wf, ws, rs, wc, rf, rc⟩
    simp only [schedStep, read_swap]
    constructor
    · rcases rf <;> rcases ws <;> rcases rs <;> simp_all
    · intro h0
      simp only [h0]
      rcases ws <;> rcases rs <;> simp_all
  · intro ins sv sr h0 h1
    obtain ⟨h1', h2', h3', h4'⟩ := schedInv_run ins
    apply h3'.mp
    simp only [schedStep, h0] at h1
    simpa using h1

/-- Closed instance of the amended C7: at reset the write FSM enters the
block with differing selectors, and at the trace of rle_C7_cex the
INIT to WRITE_INPUT transition happens with wBlocks = rBlocks. -/
theorem rle_C7_amended_witness :
    SchedState.reset.write_sel ≠ SchedState.reset.read_sel ∧
    (gRun (List.replicate 66 (true, true))).wBlocks
      = (gRun (List.replicate 66 (true, true))).rBlocks := by
  refine ⟨rle_C7_amended.1 SchedState.reset true true rfl (by decide),
    rle_C7_amended.2.2.2 (List.replicate 66 (true, true)) true true (by decide) (by decide)⟩

/-- Number of consumer ready cycles in a list of (sink.valid,
source.ready) inputs. -/
def srCount (ins : List (Bool × Bool)) : Nat := (ins.filter (fun i => i.2)).length

/-- Per cycle read side observations of one block: starting in
READ_OUTPUT, every cycle records (source.valid, source.last, accepted)
where accepted means the consumer was ready; collection stops when the
FSM returns to INIT (the accepted cycle with read_count = 63) or the
input list runs out. -/
def readOuts (s : SchedState) : List (Bool × Bool) → List (Bool × Bool × Bool)
  | [] => []
  | (sv, sr) :: rest =>
    if s.rfsm then
      (schedSourceValid s, schedSourceLast s, sr) ::
        (if sr && (s.read_count == 63) then []
         else readOuts (schedStep s sv sr) rest)
    else []

lemma readOuts_drain :
    ∀ (ins : List (Bool × Bool)) (s : SchedState), s.rfsm = true → s.read_count ≤ 63 →
      (∀ o ∈ readOuts s ins, o.1 = true) ∧
      ((readOuts s ins).filter (fun o => o.2.2)).map (fun o => o.2.1)
        = (List.range (min (srCount ins) (64 - s.read_count))).map
            (fun j => s.read_count + j == 63) := by
  intro ins
  induction ins with
  | nil =>
    intro s hf hc
    simp [readOuts, srCount]
  | cons i rest ih =>
    intro s hf hc
    obtain ⟨sv, sr⟩ := i
    rcases sr with _ | _
    · -- consumer not ready: the cycle is emitted but not accepted
      have hs1 : (schedStep s sv false).rfsm = true := by
        simp [schedStep, hf]
      have hs2 : (schedStep s sv false).read_count = s.read_count := by
        simp [schedStep, read_inc, hf]
      obtain ⟨ihv, ihm⟩ := ih (schedStep s sv false) hs1 (by omega)
      constructor
      · intro o ho
        simp only [readOuts, hf, if_true, Bool.false_and, Bool.false_eq_true,
          if_false, List.mem_cons] at ho
        rcases ho with ho | ho
        · rw [ho]; simp [schedSourceValid, hf]
        · exact ihv o ho
      · simp only [readOuts, hf, if_true, Bool.false_and, Bool.false_eq_true,
          if_false]
        rw [List.filter_cons_of_neg (by simp)]
        rw [ihm, hs2]
        have : srCount ((sv, false) :: rest) = srCount rest := by
          simp [srCount]
        rw [this]
    · -- consumer ready: the cycle is accepted
      by_cases h63 : s.read_count = 63
      · -- final accepted cycle of the block
        have hb : (s.read_count == 63) = true := by simp [h63]
        constructor
        · intro o ho
          simp only [readOuts, hf, if_true, hb, Bool.true_and, Bool.and_self,
            if_true, List.mem_cons, List.not_mem_nil, or_false] at ho
          rw [ho]; simp [schedSourceValid, hf]
        · simp only [readOuts, hf, if_true, hb, Bool.true_and, if_true]
          have hcnt : srCount ((sv, true) :: rest) = srCount rest + 1 := by
            simp [srCount, Nat.add_comm]
          rw [hcnt, h63]
          have hmin : min (srCount rest + 1) (64 - 63) = 1 := by omega
          rw [hmin]
          have hr1 : List.range 1 = [0] := rfl
          simp [schedSourceLast, hf, hb, hr1]
      · -- accepted cycle with read_count strictly below 63
        have hb : (s.read_count == 63) = false := by simp [h63]
        have hlt : s.read_count ≤ 62 := by omega
        have hs1 : (schedStep s sv true).rfsm = true := by
          simp [schedStep, hf, hb]
        have hs2 : (schedStep s sv true).read_count = s.read_count + 1 := by
          simp [schedStep, read_inc, hf]
          omega
        obtain ⟨ihv, ihm⟩ := ih (schedStep s sv true) hs1 (by omega)
        constructor
        · intro o ho
          simp only [readOuts, hf, if_true, hb, Bool.and_false, Bool.false_eq_true,
            if_false, List.mem_cons] at ho
          rcases ho with ho | ho
          · rw [ho]; simp [schedSourceValid, hf]
          · exact ihv o ho
        · simp only [readOuts, hf, if_true, hb, Bool.and_false, Bool.false_eq_true,
            if_false]
          rw [List.filter_cons_of_pos (by simp)]
          rw [List.map_cons, ihm, hs2]
          have hcnt : srCount ((sv, true) :: rest) = srCount rest + 1 := by
            simp [srCount, Nat.add_comm]
          rw [hcnt]
          have hsplit : min (srCount rest + 1) (64 - s.read_count)
              = min (srCount rest) (64 - (s.read_count + 1)) + 1 := by omega
          rw [hsplit]
          have hrange : List.range (min (srCount rest) (64 - (s.read_count + 1)) + 1)
              = 0 :: (List.range (min (srCount rest) (64 - (s.read_count + 1)))).map
                  Nat.succ := List.range_succ_eq_map _
          rw [hrange, List.map_cons, List.map_map]
          congr 1
          · simp [schedSourceLast, hf, hb]
          · apply List.map_congr_left
            intro j hj
            simp only [Function.comp_apply]
            congr 1
            omega

/-- C5: every block entered by the read FSM starts at read_count 0; the
stream level source.valid and source.last depend only on the scheduler
state, never on the token word or its embedded validity bit; and for one
block (read FSM in READ_OUTPUT at read_count 0, with at least 64 ready
cycles offered) source.valid is asserted on every cycle of the block,
exactly 64 cycles are accepted, and source.last holds on an accepted
cycle exactly at the 64th one (read_count 63). -/
theorem rle_C5 :
    (∀ (s : SchedState) (sv sr : Bool),
      s.rfsm = false → (schedStep s sv sr).read_count = 0) ∧
    (∀ (s1 s2 : RLState), s1.sched = s2.sched →
      rlSourceValid s1 = rlSourceValid s2 ∧ rlSourceLast s1 = rlSourceLast s2) ∧
    (∀ (ins : List (Bool × Bool)) (s : SchedState),
      s.rfsm = true → s.read_count = 0 → 64 ≤ srCount ins →
      (∀ o ∈ readOuts s ins, o.1 = true) ∧
      ((readOuts s ins).filter (fun o => o.2.2)).length = 64 ∧
      ((readOuts s ins).filter (fun o => o.2.2)).map (fun o => o.2.1)
        = (List.range 64).map (fun j => j == 63)) := by
  refine ⟨?_, ?_, ?_⟩
  · intro s sv sr h0
    simp [schedStep, h0]
  · intro s1 s2 h
    constructor
    · simp only [rlSourceValid, h]
    · simp only [rlSourceLast, h]
  · intro ins s hf hc0 hge
    obtain ⟨hv, hm⟩ := readOuts_drain ins s hf (by omega)
    rw [hc0] at hm
    have hmin : min (srCount ins) (64 - 0) = 64 := by omega
    rw [hmin] at hm
    have hzero : (List.range 64).map (fun j => (0 : Nat) + j == 63)
        = (List.range 64).map (fun j => j == 63) := by
      apply List.map_congr_left
      intro j hj
      congr 1
      omega
    refine ⟨hv, ?_, by rw [hm, hzero]⟩
    have := congrArg List.length hm
    simpa using this

/-- Closed instance of rle_C5: the block start fact at a concrete state,
the independence fact at two states with equal scheduler parts but
different datapath words, and the full block property on a run of 64
all ready cycles from READ_OUTPUT at read_count 0. -/
theorem rle_C5_witness :
    (schedStep ⟨false, true, true, 7, false, 9⟩ true true).read_count = 0 ∧
    (rlSourceValid ⟨SchedState.reset, DPState.reset⟩
        = rlSourceValid ⟨SchedState.reset, ⟨0, 0, 0, false, false, true, 0, 0, 0, 77⟩⟩) ∧
    (((readOuts ⟨false, true, false, 0, true, 0⟩
        (List.replicate 64 (true, true))).filter (fun o => o.2.2)).length = 64) := by
  refine ⟨rle_C5.1 _ true true rfl,
    (rle_C5.2.1 _ _ rfl).1,
    (rle_C5.2.2 (List.replicate 64 (true, true)) _ rfl rfl (by decide)).2.1⟩

/-- Erasure of the auxiliary sign correction register: two datapath
states agree on everything but accumulator_temp exactly when their
erasures are equal. -/
def eraseTemp (d : DPState) : DPState := { d with accumulator_temp := 0 }

/-- All stream level observations of the actor in one cycle:
source.valid, source.last, the source.data word and sink.ready. -/
def rlObs (s : RLState) : Bool × Bool × Nat × Bool :=
  (rlSourceValid s, rlSourceLast s, rlSourceData s, rlSinkReady s)

/-- Cycle by cycle observation trace of a run from an arbitrary state. -/
def rlObsTrace (s : RLState) : List RLIn → List (Bool × Bool × Nat × Bool)
  | [] => []
  | i :: rest => rlObs s :: rlObsTrace (rlStep s i) rest

lemma eraseTemp_dpStep (d1 d2 : DPState) (h : eraseTemp d1 = eraseTemp d2)
    (wc dat : Nat) (ce : Bool) :
    eraseTemp (dpStep d1 wc dat ce) = eraseTemp (dpStep d2 wc dat ce) := by
  rcases d1 with ⟨a1, t1, r1, v1, vn1, vnn1, z1, p1, si1, so1⟩
  rcases d2 with ⟨a2, t2, r2, v2, vn2, vnn2, z2, p2, si2, so2⟩
  simp only [eraseTemp, DPState.mk.injEq] at h
  obtain ⟨ha, -, hr, hv, hvn, hvnn, hz, hp, hsi, hso⟩ := h
  subst ha hr hv hvn hvnn hz hp hsi hso
  rcases ce
  · rfl
  · simp only [dpStep, rleDecision, eraseTemp, if_true]
    split_ifs <;> rfl

lemma rlObs_eq_of_agree (s1 s2 : RLState) (hs : s1.sched = s2.sched)
    (hd : eraseTemp s1.dp = eraseTemp s2.dp) : rlObs s1 = rlObs s2 := by
  have h1 : s1.dp.dovalid_next_next = s2.dp.dovalid_next_next := by
    have := congrArg DPState.dovalid_next_next hd
    simpa [eraseTemp] using this
  have h2 : s1.dp.source = s2.dp.source := by
    have := congrArg DPState.source hd
    simpa [eraseTemp] using this
  simp [rlObs, rlSourceValid, rlSourceLast, rlSourceData, rlSinkReady,
    schedSourceValid, schedSourceLast, schedSinkReady, hs, h1, h2]

/-- C9: the auxiliary sign correction register accumulator_temp never
influences any observable output.  For any two runs whose start states
agree on the scheduler and on every datapath register except
accumulator_temp, the complete cycle by cycle trace of stream
observations (source.valid, source.last, source.data, sink.ready) is
identical, over any input sequence. -/
theorem rle_C9 (s1 s2 : RLState) (hs : s1.sched = s2.sched)
    (hd : eraseTemp s1.dp = eraseTemp s2.dp) :
    ∀ (ins : List RLIn), rlObsTrace s1 ins = rlObsTrace s2 ins := by
  intro ins
  induction ins generalizing s1 s2 with
  | nil => rfl
  | cons i rest ih =>
    simp only [rlObsTrace]
    rw [rlObs_eq_of_agree s1 s2 hs hd]
    congr 1
    apply ih
    · simp [rlStep, hs]
    · simp only [rlStep]
      rw [show s1.sched.write_count = s2.sched.write_count from by rw [hs]]
      exact eraseTemp_dpStep s1.dp s2.dp hd s2.sched.write_count i.sink_data i.ce

/-- Closed instance of rle_C9: two reset states differing only in a
nonzero accumulator_temp produce identical observation traces on a
concrete three cycle input list. -/
theorem rle_C9_witness :
    rlObsTrace ⟨SchedState.reset, ⟨0, 5, 0, false, false, false, 0, 0, 0, 0⟩⟩
        [⟨true, 9, true, true⟩, ⟨true, 0, true, true⟩, ⟨false, 4, false, true⟩]
      = rlObsTrace ⟨SchedState.reset, DPState.reset⟩
        [⟨true, 9, true, true⟩, ⟨true, 0, true, true⟩, ⟨false, 4, false, true⟩] :=
  rle_C9 _ _ rfl (by decide) _

/-- Word level invariant of the two output registers: each always holds
a packed token whose bit 16 is the correspondingly delayed dovalid
flag. -/
def DPWordInv (d : DPState) : Prop :=
  (∃ a r, d.source_inter = packToken a r d.dovalid_next) ∧
  (∃ a r, d.source = packToken a r d.dovalid_next_next)

lemma dpWordInv_step (d : DPState) (h : DPWordInv d) (wc dat : Nat) (ce : Bool) :
    DPWordInv (dpStep d wc dat ce) := by
  rcases ce
  · exact h
  · exact ⟨⟨d.accumulator, d.runlength, rfl⟩, h.1⟩

lemma rlRun_wordInv (ins : List RLIn) : DPWordInv (rlRun ins).dp := by
  rw [rlRun]
  have base : DPWordInv RLState.reset.dp := ⟨⟨0, 0, rfl⟩, ⟨0, 0, rfl⟩⟩
  generalize RLState.reset = s0 at base ⊢
  induction ins generalizing s0 with
  | nil => exact base
  | cons i rest ih =>
    rw [List.foldl_cons]
    exact ih _ (dpWordInv_step _ base _ _ _)

lemma packToken_div (a r : Nat) (v : Bool) :
    packToken a r v / 65536 = if v then 1 else 0 := by
  rcases v
  · simp only [packToken, mask12, if_neg Bool.false_ne_true]
    rw [Nat.add_zero]
    apply Nat.div_eq_of_lt
    omega
  · simp only [packToken, mask12, eq_self_iff_true, if_true]
    rw [Nat.add_div_right _ (by omega : 0 < 65536), Nat.div_eq_of_lt (by omega)]

/-- C10: on any cycle whose doubly delayed validity bit is clear the word
presented on source.data is identically 0 (amplitude bits, run length
bits and the embedded validity bit all zero); the packed word of a
genuine end of block decision (amplitude 0, run length 0, valid) is
exactly 2 to the 16, so it differs from the filler word only in bit 16;
and on every run from reset the bits of the outgoing datapath word above
position 15 are exactly the doubly delayed validity bit, so the embedded
bit is the only discriminator. -/
theorem rle_C10 :
    (∀ s : RLState, s.dp.dovalid_next_next = false → rlSourceData s = 0) ∧
    packToken 0 0 true = 65536 ∧
    packToken 0 0 false = 0 ∧
    (∀ ins : List RLIn,
      (rlRun ins).dp.source / 65536
        = if (rlRun ins).dp.dovalid_next_next then 1 else 0) := by
  refine ⟨?_, rfl, rfl, ?_⟩
  · intro s h
    simp [rlSourceData, h]
  · intro ins
    obtain ⟨-, a, r, hsrc⟩ := rlRun_wordInv ins
    rw [hsrc, packToken_div]

/-- Closed instance of rle_C10: the filler word at a concrete state with
the doubly delayed validity bit clear is 0. -/
theorem rle_C10_witness :
    rlSourceData ⟨SchedState.reset, ⟨1, 2, 3, true, true, false, 4, 5, 6, 7⟩⟩ = 0 :=
  rle_C10.1 _ rfl

end LiteJPEG
